import Mathlib

/-!
Verification of the BuyZone repository core against its specification.

The development shallowly embeds the two source files:
* `src/app/api/history/route.ts` — the deterministic mock candle generator;
* `src/app/page.tsx` — the watchlist store (zone derivation, add/refresh/
  remove/clear, localStorage persistence).

JavaScript numbers are modelled as exact rationals (`ℚ`), 32-bit integer
wrap-around as explicit `% 2^32` on `Nat`, ISO date strings as UTC epoch-day
integers, and the wall clock (`new Date()`) as an explicit `today` parameter.
-/

namespace BuyZone

/-! ## `src/app/api/history/route.ts` -/

/-- One step of `hashString` from route.ts: JavaScript
`h ^= s.charCodeAt(i); h = Math.imul(h, 16777619)`.  Both operations act on
32-bit patterns, modelled on `Nat` with an explicit `% 2^32`; the accumulator
stays below `2^32`, so the final `>>> 0` of the source is the identity. -/
def hashStep (h : Nat) (c : Char) : Nat := ((h ^^^ c.toNat) * 16777619) % 4294967296

/-- `hashString` from route.ts (seed 2166136261).  `charCodeAt` returns UTF-16
code units; every string hashed by the repository is ASCII, where this agrees
with `Char.toNat`. -/
def hashString (s : String) : Nat := s.data.foldl hashStep 2166136261

/-- `clamp(n, min, max) = Math.max(min, Math.min(max, n))` from route.ts. -/
def clamp (n mn mx : ℚ) : ℚ := max mn (min mx n)

/-- A candle as returned by the endpoint.  The ISO date string `t`
(`d.toISOString().slice(0, 10)`, time-of-day zeroed) is modelled as a UTC
epoch-day integer. -/
structure Candle where
  t : Int
  o : ℚ
  h : ℚ
  l : ℚ
  c : ℚ
  v : Nat
deriving DecidableEq, Repr

/-- `Number(x.toFixed(4))`: rounding to 4 decimal places (nearest, ties up for
the positive values occurring here), modelled exactly on `ℚ`. -/
def round4 (x : ℚ) : ℚ := ((x * 10000 + 1/2).floor : ℚ) / 10000

/-- `volatility = 0.008 + (baseHash % 30) / 3000` from route.ts. -/
def volatility (symbol : String) : ℚ := 8/1000 + ((hashString symbol % 30 : Nat) : ℚ) / 3000

/-- `drift = ((baseHash % 200) - 100) / 100000` from route.ts. -/
def drift (symbol : String) : ℚ := (((hashString symbol % 200 : Nat) : ℚ) - 100) / 100000

/-- `startPrice = 20 + (baseHash % 8000) / 100` from route.ts. -/
def startPrice (symbol : String) : ℚ := 20 + ((hashString symbol % 8000 : Nat) : ℚ) / 100

/-- `r1 = (hashString(symbol + "|a|" + i) % 10000) / 10000` from route.ts. -/
def r1 (symbol : String) (i : Nat) : ℚ :=
  ((hashString (symbol ++ "|a|" ++ toString i) % 10000 : Nat) : ℚ) / 10000

/-- `r2 = (hashString(symbol + "|b|" + i) % 10000) / 10000` from route.ts. -/
def r2 (symbol : String) (i : Nat) : ℚ :=
  ((hashString (symbol ++ "|b|" ++ toString i) % 10000 : Nat) : ℚ) / 10000

/-- `r3 = (hashString(symbol + "|c|" + i) % 10000) / 10000` from route.ts. -/
def r3 (symbol : String) (i : Nat) : ℚ :=
  ((hashString (symbol ++ "|c|" ++ toString i) % 10000 : Nat) : ℚ) / 10000

/-- `vol = Math.floor(1000 + hashString(symbol + "|v|" + i) % 50000)` from
route.ts; the argument is already an integer, so `Math.floor` is the
identity. -/
def volume (symbol : String) (i : Nat) : Nat :=
  1000 + hashString (symbol ++ "|v|" ++ toString i) % 50000

/-- `dailyMove = (r1 - 0.5) * 2 * volatility + drift` from route.ts. -/
def dailyMove (symbol : String) (i : Nat) : ℚ :=
  (r1 symbol i - 1/2) * 2 * volatility symbol + drift symbol

/-- Day `i`'s close before rounding:
`clamp(open * (1 + dailyMove), open * 0.85, open * 1.15)` from route.ts. -/
def newClose (symbol : String) (i : Nat) (price : ℚ) : ℚ :=
  clamp (price * (1 + dailyMove symbol i)) (price * (85/100)) (price * (115/100))

/-- The candle pushed for day index `i` when the running price (that day's
open) is `price`; `startDate` is the date of day index 0. -/
def mkCandle (symbol : String) (startDate : Int) (i : Nat) (price : ℚ) : Candle :=
  { t := startDate + (i : Int)
    o := round4 price
    h := round4 (max price (newClose symbol i price) * (1 + r2 symbol i * volatility symbol))
    l := round4 (min price (newClose symbol i price) * (1 - r3 symbol i * volatility symbol))
    c := round4 (newClose symbol i price)
    v := volume symbol i }

/-- The generation loop of `generateMockHistory`: `n` days remain, the next
day has index `i`, and `price` is the running (unrounded) price carried in
`let price = ...; price = close` in route.ts. -/
def genFrom (symbol : String) (startDate : Int) : Nat → Nat → ℚ → List Candle
  | 0, _, _ => []
  | n+1, i, price =>
    mkCandle symbol startDate i price ::
      genFrom symbol startDate n (i + 1) (newClose symbol i price)

/-- `generateMockHistory(symbol, days)` from route.ts.  `today` is the UTC
epoch day of `new Date()` with time zeroed; the source computes
`start = today - (days - 1)` via `setUTCDate`, whose day-of-month overflow
normalisation is exactly epoch-day arithmetic. -/
def generateMockHistory (symbol : String) (days : Nat) (today : Int) : List Candle :=
  genFrom symbol (today - ((days : Int) - 1)) days 0 (startPrice symbol)

/-! ## `src/app/page.tsx` -/

/-- `AssetType` from page.tsx. -/
inductive AssetType where
  | CRYPTO
  | STOCK
  | ETF
deriving DecidableEq, Repr

/-- `Zone` from page.tsx. -/
inductive Zone where
  | IN_BUY_ZONE
  | APPROACHING
  | NOT_ATTRACTIVE
deriving DecidableEq, Repr

/-- `WatchItem` from page.tsx — exactly the fields of the source type
(`id`, `ticker`, `type`, `note?`, `addedAt`, `zone`); in particular the source
type has no confidence field. -/
structure WatchItem where
  id : String
  ticker : String
  type : AssetType
  note : Option String
  addedAt : Int
  zone : Zone
deriving DecidableEq, Repr

/-- The literal string of an `AssetType` union member. -/
def typeName : AssetType → String
  | .CRYPTO => "CRYPTO"
  | .STOCK => "STOCK"
  | .ETF => "ETF"

/-- The literal string of a `Zone` union member. -/
def zoneName : Zone → String
  | .IN_BUY_ZONE => "IN_BUY_ZONE"
  | .APPROACHING => "APPROACHING"
  | .NOT_ATTRACTIVE => "NOT_ATTRACTIVE"

/-- JavaScript `String.prototype.trim`: drop leading and trailing whitespace.
JavaScript `\s` is modelled by `Char.isWhitespace` (the ASCII whitespace that
can occur in the text inputs here). -/
def jsTrim (s : String) : String :=
  String.mk (((s.data.dropWhile Char.isWhitespace).reverse.dropWhile
    Char.isWhitespace).reverse)

/-- `normalizeTicker` from page.tsx:
`v.trim().toUpperCase().replace(/\s+/g, "")`. -/
def normalizeTicker (v : String) : String :=
  String.mk (((jsTrim v).data.map Char.toUpper).filter (fun c => !c.isWhitespace))

/-- `mockZone` from page.tsx: sum the char codes of `` `${type}:${ticker}` ``
and bucket the sum mod 3 (`0 → IN_BUY_ZONE, 1 → APPROACHING,
else NOT_ATTRACTIVE`). -/
def mockZone (ticker : String) (ty : AssetType) : Zone :=
  let base := typeName ty ++ ":" ++ ticker
  let sum := base.data.foldl (fun s c => s + c.toNat) (0 : Nat)
  if sum % 3 = 0 then .IN_BUY_ZONE
  else if sum % 3 = 1 then .APPROACHING
  else .NOT_ATTRACTIVE

/-- `defaultItems()` from page.tsx. -/
def defaultItems : List WatchItem :=
  [ { id := "1", ticker := "BTC", type := .CRYPTO, note := none, addedAt := 2,
      zone := .APPROACHING },
    { id := "2", ticker := "AAPL", type := .STOCK, note := none, addedAt := 1,
      zone := .NOT_ATTRACTIVE } ]

/-- JSON values as produced by `JSON.parse`/`JSON.stringify` on the data the
store persists (strings, the integral numbers occurring here, arrays,
objects). -/
inductive Json where
  | str : String → Json
  | num : Int → Json
  | arr : List Json → Json
  | obj : List (String × Json) → Json

/-- Property access `o[key]` on a parsed JSON object. -/
def fieldGet : List (String × Json) → String → Option Json
  | [], _ => none
  | (k, v) :: fs, key => if k = key then some v else fieldGet fs key

/-- `JSON.stringify` of one `WatchItem`: the object's keys in the insertion
order of the source object literal, with `note` omitted when `undefined`. -/
def itemToJson (w : WatchItem) : Json :=
  .obj ([("id", .str w.id), ("ticker", .str w.ticker), ("type", .str (typeName w.type))]
    ++ (match w.note with
        | none => []
        | some n => [("note", .str n)])
    ++ [("addedAt", .num w.addedAt), ("zone", .str (zoneName w.zone))])

/-- Reading an `AssetType` union string back. -/
def typeOfName (s : String) : Option AssetType :=
  if s = "CRYPTO" then some .CRYPTO
  else if s = "STOCK" then some .STOCK
  else if s = "ETF" then some .ETF
  else none

/-- Reading a `Zone` union string back. -/
def zoneOfName (s : String) : Option Zone :=
  if s = "IN_BUY_ZONE" then some .IN_BUY_ZONE
  else if s = "APPROACHING" then some .APPROACHING
  else if s = "NOT_ATTRACTIVE" then some .NOT_ATTRACTIVE
  else none

def asStr : Option Json → Option String
  | some (.str s) => some s
  | _ => none

def asNum : Option Json → Option Int
  | some (.num n) => some n
  | _ => none

/-- Reading one parsed JSON object back as a `WatchItem` — the untyped cast
the load effect performs when it calls `setItems(saved)` on the parsed
array. -/
def itemOfJson : Json → Option WatchItem
  | .obj fs =>
    match asStr (fieldGet fs "id"), asStr (fieldGet fs "ticker"),
        (asStr (fieldGet fs "type")).bind typeOfName,
        asNum (fieldGet fs "addedAt"),
        (asStr (fieldGet fs "zone")).bind zoneOfName with
    | some i, some tk, some ty, some t, some z =>
        some { id := i, ticker := tk, type := ty, note := asStr (fieldGet fs "note"),
               addedAt := t, zone := z }
    | _, _, _, _, _ => none
  | _ => none

/-- `trySave` from page.tsx: the value
`JSON.stringify(items)` written to `localStorage[STORAGE_KEY]`. -/
def saveBlob (items : List WatchItem) : Json := .arr (items.map itemToJson)

/-- Element-wise cast of a parsed array back to `WatchItem`s. -/
def decodeItems : List Json → Option (List WatchItem)
  | [] => some []
  | j :: js =>
    match itemOfJson j, decodeItems js with
    | some w, some ws => some (w :: ws)
    | _, _ => none

/-- The load effect from `Home` in page.tsx:
`saved = safeParse(localStorage.getItem(STORAGE_KEY));
if (Array.isArray(saved)) setItems(saved.length ? saved : defaultItems())`.
`slot` is the parse result (`none` when the slot is absent or `safeParse`
failed), `current` the in-memory items at load time.  For blobs written by
`saveBlob` the element cast always succeeds; `decodeItems`' `none` fallback is
unreachable there and is modelled as leaving the state unchanged. -/
def loadEffect (slot : Option Json) (current : List WatchItem) : List WatchItem :=
  match slot with
  | some (.arr l) =>
    if l.isEmpty then defaultItems
    else
      match decodeItems l with
      | some ws => ws
      | none => current
  | _ => current

/-- The `addAsset` handler from page.tsx as a transition on the items list.
`freshId` stands for the generated `Date.now()-Math.random()` id and `now`
for `Date.now()`: both are inputs external to the state logic. -/
def addAsset (items : List WatchItem) (tickerInput : String) (typeInput : AssetType)
    (noteInput : String) (freshId : String) (now : Int) : List WatchItem :=
  let ticker := normalizeTicker tickerInput
  if ticker = "" then items
  else if items.any (fun x => x.ticker == ticker && x.type == typeInput) then items
  else
    { id := freshId, ticker := ticker, type := typeInput,
      note := if jsTrim noteInput = "" then none else some (jsTrim noteInput),
      addedAt := now, zone := mockZone ticker typeInput } :: items

/-- `refresh` from page.tsx: recompute every entry's zone, preserving id,
ticker, type, note and addedAt. -/
def refreshItems (items : List WatchItem) : List WatchItem :=
  items.map (fun x => { x with zone := mockZone x.ticker x.type })

/-- `removeAsset(id)` from page.tsx: `items.filter(x => x.id !== id)`. -/
def removeItem (items : List WatchItem) (id : String) : List WatchItem :=
  items.filter (fun x => x.id != id)

/-- The client state: the in-memory items plus the persisted slot
(`localStorage[STORAGE_KEY]` parsed; `none` = absent or unparseable). -/
structure Store where
  items : List WatchItem
  slot : Option Json

/-- A mutation followed by `trySave`: on success the slot is overwritten with
the serialized new list; a failed write is caught (`Save blocked` status) and
leaves the slot unchanged while the in-memory state advances. -/
def saveTo (s : Store) (next : List WatchItem) (saveOk : Bool) : Store :=
  { items := next, slot := if saveOk then some (saveBlob next) else s.slot }

/-- `addAsset` on the full state.  The source returns early — without calling
`trySave` — exactly in the two cases where the items are unchanged (empty
normalized ticker, or an entry with the same identifier already present). -/
def applyAdd (s : Store) (tickerInput : String) (typeInput : AssetType)
    (noteInput : String) (freshId : String) (now : Int) (saveOk : Bool) : Store :=
  let next := addAsset s.items tickerInput typeInput noteInput freshId now
  if next = s.items then s else saveTo s next saveOk

/-- `refresh` on the full state. -/
def applyRefresh (s : Store) (saveOk : Bool) : Store :=
  saveTo s (refreshItems s.items) saveOk

/-- `removeAsset` on the full state. -/
def applyRemove (s : Store) (id : String) (saveOk : Bool) : Store :=
  saveTo s (removeItem s.items id) saveOk

/-- `clearAll` on the full state. -/
def applyClear (s : Store) (saveOk : Bool) : Store :=
  saveTo s [] saveOk

/-- The load effect on the full state (the slot is only read). -/
def applyLoad (s : Store) : Store :=
  { s with items := loadEffect s.slot s.items }

/-- States reachable from the freshly-mounted page (in-memory
`defaultItems`, nothing persisted yet) by the five store operations. -/
inductive Reachable : Store → Prop where
  | init : Reachable { items := defaultItems, slot := none }
  | add (s : Store) (tickerInput : String) (typeInput : AssetType)
      (noteInput freshId : String) (now : Int) (saveOk : Bool) :
      Reachable s → Reachable (applyAdd s tickerInput typeInput noteInput freshId now saveOk)
  | refresh (s : Store) (saveOk : Bool) :
      Reachable s → Reachable (applyRefresh s saveOk)
  | remove (s : Store) (id : String) (saveOk : Bool) :
      Reachable s → Reachable (applyRemove s id saveOk)
  | clear (s : Store) (saveOk : Bool) :
      Reachable s → Reachable (applyClear s saveOk)
  | load (s : Store) :
      Reachable s → Reachable (applyLoad s)

/-- The identifier of an entry: its (ticker, type) pair. -/
def ident (w : WatchItem) : String × AssetType := (w.ticker, w.type)

/-- No two entries of the list share an identifier. -/
def NoDupIdent (l : List WatchItem) : Prop := (l.map ident).Nodup

/-- Entries of `l` carrying the identifier `(tk, ty)`. -/
def countIdent (l : List WatchItem) (tk : String) (ty : AssetType) : Nat :=
  (l.filter (fun x => x.ticker == tk && x.type == ty)).length

/-- Field lookup on a JSON object value (`none` on non-objects). -/
def jsonField (j : Json) (key : String) : Option Json :=
  match j with
  | .obj fs => fieldGet fs key
  | _ => none

/-- The persisted-slot half of the store invariant: either nothing was ever
saved, or the slot holds the serialization of some identifier-unique entry
list (every write goes through `saveBlob`). -/
def SlotInv : Option Json → Prop
  | none => True
  | some j => ∃ l, NoDupIdent l ∧ j = saveBlob l

/-- Modelled from the spec: the allowed-ticker pattern of §4.2 — letters,
digits, `.`, `-`, length 1–15 — which the spec says `add` enforces after
normalization.  Stated only for comparison: page.tsx contains no such
check. -/
def specAllowedTicker (s : String) : Bool :=
  decide (1 ≤ s.length) && decide (s.length ≤ 15)
    && s.data.all (fun c => c.isAlpha || c.isDigit || c == '.' || c == '-')

/-- Modelled from the spec: §4.1 derives a confidence `35 + (hash mod 66)`
from the stable multiply-xor hash of the key `type:ticker`.  page.tsx
contains no confidence computation at all; this definition exists only to
state what the spec would require. -/
def specConfidence (ticker : String) (ty : AssetType) : Nat :=
  35 + hashString (typeName ty ++ ":" ++ ticker) % 66

/-! ### Basic bounds for the generator -/

theorem ratFloor_eq_intFloor (q : ℚ) : q.floor = ⌊q⌋ := by
  rw [Rat.floor_def', Rat.floor_def]

theorem round4_mono : Monotone round4 := by
  intro x y hxy
  unfold round4
  rw [ratFloor_eq_intFloor, ratFloor_eq_intFloor]
  have h2 : (⌊x * 10000 + 1/2⌋ : ℚ) ≤ (⌊y * 10000 + 1/2⌋ : ℚ) := by
    exact_mod_cast Int.floor_le_floor (by linarith)
  exact div_le_div_of_nonneg_right h2 (by norm_num)

theorem volatility_bounds (symbol : String) :
    8/1000 ≤ volatility symbol ∧ volatility symbol < 18/1000 := by
  unfold volatility
  have h0 : (0 : ℚ) ≤ ((hashString symbol % 30 : Nat) : ℚ) := by positivity
  have h1 : ((hashString symbol % 30 : Nat) : ℚ) ≤ 29 := by
    exact_mod_cast Nat.le_of_lt_succ (Nat.mod_lt _ (by norm_num))
  constructor <;> [linarith; linarith]

theorem abs_drift_le (symbol : String) : |drift symbol| ≤ 1/1000 := by
  unfold drift
  have h0 : (0 : ℚ) ≤ ((hashString symbol % 200 : Nat) : ℚ) := by positivity
  have h1 : ((hashString symbol % 200 : Nat) : ℚ) ≤ 199 := by
    exact_mod_cast Nat.le_of_lt_succ (Nat.mod_lt _ (by norm_num))
  rw [abs_le]
  constructor <;> [linarith; linarith]

theorem r1_bounds (symbol : String) (i : Nat) : 0 ≤ r1 symbol i ∧ r1 symbol i < 1 := by
  unfold r1
  have h0 : (0 : ℚ) ≤ ((hashString (symbol ++ "|a|" ++ toString i) % 10000 : Nat) : ℚ) := by positivity
  have h1 : ((hashString (symbol ++ "|a|" ++ toString i) % 10000 : Nat) : ℚ) ≤ 9999 := by
    exact_mod_cast Nat.le_of_lt_succ (Nat.mod_lt _ (by norm_num))
  constructor <;> [positivity; linarith]

theorem r2_nonneg (symbol : String) (i : Nat) : 0 ≤ r2 symbol i := by
  unfold r2; positivity

theorem r3_nonneg (symbol : String) (i : Nat) : 0 ≤ r3 symbol i := by
  unfold r3; positivity

theorem abs_dailyMove_le (symbol : String) (i : Nat) :
    |dailyMove symbol i| ≤ volatility symbol + |drift symbol| := by
  unfold dailyMove
  have hv := volatility_bounds symbol
  have hr := r1_bounds symbol i
  have h1 : |(r1 symbol i - 1/2) * 2 * volatility symbol| ≤ volatility symbol := by
    rw [abs_mul, abs_of_nonneg (le_trans (by norm_num) hv.1)]
    have h2 : |(r1 symbol i - 1/2) * 2| ≤ 1 := by
      rw [abs_mul]
      have : |r1 symbol i - 1/2| ≤ 1/2 := by
        rw [abs_le]; constructor <;> [linarith [hr.1]; linarith [hr.2]]
      rw [abs_of_nonneg (by norm_num : (0:ℚ) ≤ 2)]
      linarith
    nlinarith [hv.1]
  calc |(r1 symbol i - 1/2) * 2 * volatility symbol + drift symbol|
      ≤ |(r1 symbol i - 1/2) * 2 * volatility symbol| + |drift symbol| := abs_add _ _
    _ ≤ volatility symbol + |drift symbol| := by linarith

theorem vol_plus_drift_lt (symbol : String) :
    volatility symbol + |drift symbol| < 2/100 := by
  have hv := volatility_bounds symbol
  have hd := abs_drift_le symbol
  linarith

theorem startPrice_pos (symbol : String) : 0 < startPrice symbol := by
  unfold startPrice
  positivity

theorem newClose_eq (symbol : String) (i : Nat) (price : ℚ) (hp : 0 < price) :
    newClose symbol i price = price * (1 + dailyMove symbol i) := by
  unfold newClose clamp
  have hb : |dailyMove symbol i| < 2/100 :=
    lt_of_le_of_lt (abs_dailyMove_le symbol i) (vol_plus_drift_lt symbol)
  rw [abs_lt] at hb
  have h1 : price * (1 + dailyMove symbol i) ≤ price * (115/100) := by nlinarith
  have h2 : price * (85/100) ≤ price * (1 + dailyMove symbol i) := by nlinarith
  rw [min_eq_right h1, max_eq_right h2]

theorem newClose_pos (symbol : String) (i : Nat) (price : ℚ) (hp : 0 < price) :
    0 < newClose symbol i price := by
  have h : price * (85/100) ≤ newClose symbol i price := by
    unfold newClose clamp
    exact le_max_left _ _
  nlinarith

theorem mkCandle_high_low (symbol : String) (startDate : Int) (i : Nat) (price : ℚ)
    (hp : 0 < price) :
    max (mkCandle symbol startDate i price).o (mkCandle symbol startDate i price).c
      ≤ (mkCandle symbol startDate i price).h ∧
    (mkCandle symbol startDate i price).l
      ≤ min (mkCandle symbol startDate i price).o (mkCandle symbol startDate i price).c := by
  have hc := newClose_pos symbol i price hp
  have hv := volatility_bounds symbol
  have hvol0 : (0 : ℚ) ≤ volatility symbol := le_trans (by norm_num) hv.1
  have h2 : 0 ≤ r2 symbol i * volatility symbol :=
    mul_nonneg (r2_nonneg symbol i) hvol0
  have h3 : 0 ≤ r3 symbol i * volatility symbol :=
    mul_nonneg (r3_nonneg symbol i) hvol0
  have hmaxpos : 0 < max price (newClose symbol i price) := lt_max_of_lt_left hp
  have hminpos : 0 < min price (newClose symbol i price) := lt_min hp hc
  constructor
  · show max (round4 price) (round4 (newClose symbol i price)) ≤ round4 _
    rw [← round4_mono.map_max]
    exact round4_mono (by nlinarith)
  · show round4 _ ≤ min (round4 price) (round4 (newClose symbol i price))
    rw [← round4_mono.map_min]
    exact round4_mono (by nlinarith)

theorem genFrom_forall_ok (symbol : String) (startDate : Int) :
    ∀ (n i : Nat) (price : ℚ), 0 < price →
      (genFrom symbol startDate n i price).Forall
        (fun c => max c.o c.c ≤ c.h ∧ c.l ≤ min c.o c.c)
  | 0, _, _, _ => by simp [genFrom]
  | n+1, i, price, hp => by
    simp only [genFrom, List.forall_cons]
    exact ⟨mkCandle_high_low symbol startDate i price hp,
           genFrom_forall_ok symbol startDate n (i+1) _ (newClose_pos symbol i price hp)⟩

theorem genFrom_length (symbol : String) (startDate : Int) :
    ∀ (n i : Nat) (price : ℚ), (genFrom symbol startDate n i price).length = n
  | 0, _, _ => rfl
  | n+1, i, price => by
    simp only [genFrom, List.length_cons, genFrom_length symbol startDate n]

theorem genFrom_map_t (symbol : String) (startDate : Int) :
    ∀ (n i : Nat) (price : ℚ),
      (genFrom symbol startDate n i price).map (fun c => c.t)
        = (List.range n).map (fun (k : Nat) => startDate + (i : Int) + (k : Int))
  | 0, _, _ => rfl
  | n+1, i, price => by
    rw [List.range_succ_eq_map]
    simp only [genFrom, List.map_cons, List.map_map,
      genFrom_map_t symbol startDate n (i+1) (newClose symbol i price), mkCandle]
    rw [List.cons_eq_cons]
    refine ⟨by push_cast; ring, List.map_congr_left fun k _ => ?_⟩
    simp only [Function.comp_apply]
    push_cast
    ring

theorem genFrom_chain (symbol : String) (startDate : Int) :
    ∀ (n i : Nat) (price : ℚ),
      (genFrom symbol startDate n i price).Chain' (fun a b => a.c = b.o)
  | 0, _, _ => by simp [genFrom]
  | n+1, i, price => by
    simp only [genFrom]
    rw [List.chain'_cons']
    refine ⟨fun b hb => ?_, genFrom_chain symbol startDate n (i+1) _⟩
    cases n with
    | zero => simp [genFrom] at hb
    | succ m =>
      simp only [genFrom, List.head?_cons, Option.mem_def, Option.some.injEq] at hb
      subst hb
      simp [mkCandle]

theorem genFrom_map_numeric (symbol : String) (sd1 sd2 : Int) :
    ∀ (n i : Nat) (price : ℚ),
      (genFrom symbol sd1 n i price).map (fun c => (c.o, c.h, c.l, c.c, c.v))
        = (genFrom symbol sd2 n i price).map (fun c => (c.o, c.h, c.l, c.c, c.v))
  | 0, _, _ => rfl
  | n+1, i, price => by
    simp only [genFrom, List.map_cons,
      genFrom_map_numeric symbol sd1 sd2 n (i+1) (newClose symbol i price), mkCandle]

/-! ### Claim theorems for the history generator -/

/-- **C1 (counterexample).** The claim says the candle series is fully
determined by `(symbol, days)` alone, dates included.  The code reads the
wall clock (`new Date()`): the same `(symbol, days)` request made on two
different UTC days returns different date sequences. -/
theorem history_not_clock_independent :
    (generateMockHistory "BTC" 30 20000).map (fun c => c.t)
      ≠ (generateMockHistory "BTC" 30 20001).map (fun c => c.t) := by decide

/-- **C1 (amended).** The numeric fields (open, high, low, close, volume) of
the series are fully determined by `(symbol, days)`; only the dates depend in
addition on the current UTC day, so the whole series is determined by
`(symbol, days, current UTC day)`. -/
theorem history_numeric_clock_independent (symbol : String) (days : Nat)
    (today1 today2 : Int) :
    (generateMockHistory symbol days today1).map (fun c => (c.o, c.h, c.l, c.c, c.v))
      = (generateMockHistory symbol days today2).map (fun c => (c.o, c.h, c.l, c.c, c.v)) :=
  genFrom_map_numeric symbol _ _ days 0 _

/-- **C2.** For every symbol and every `days ∈ [30, 2000]`,
`generateMockHistory` returns exactly `days` candles whose dates are the
consecutive UTC calendar days `today - (days-1), …, today` in ascending
order with no gaps, the last being the current UTC day. -/
theorem history_count_and_dates (symbol : String) (days : Nat) (today : Int)
    (hlo : 30 ≤ days) (hhi : days ≤ 2000) :
    (generateMockHistory symbol days today).length = days ∧
    (generateMockHistory symbol days today).map (fun c => c.t)
      = (List.range days).map (fun (k : Nat) => today - ((days : Int) - 1) + (k : Int)) ∧
    ((generateMockHistory symbol days today).map (fun c => c.t)).getLast? = some today := by
  obtain ⟨m, rfl⟩ : ∃ m, days = m + 1 := ⟨days - 1, by omega⟩
  refine ⟨genFrom_length symbol _ _ 0 _, ?_, ?_⟩
  · rw [generateMockHistory, genFrom_map_t]
    exact List.map_congr_left fun k _ => by push_cast; ring
  · rw [generateMockHistory, genFrom_map_t, List.range_succ]
    simp only [List.map_append, List.map_cons, List.map_nil, List.getLast?_concat,
      Option.some.injEq]
    push_cast
    ring

/-- Witness for **C2** at `symbol = "BTC"`, `days = 30`, `today = 20000`. -/
theorem history_count_and_dates_witness :
    (generateMockHistory "BTC" 30 20000).length = 30 ∧
    (generateMockHistory "BTC" 30 20000).map (fun c => c.t)
      = (List.range 30).map (fun (k : Nat) => 20000 - ((30 : Int) - 1) + (k : Int)) ∧
    ((generateMockHistory "BTC" 30 20000).map (fun c => c.t)).getLast? = some 20000 :=
  history_count_and_dates "BTC" 30 20000 (by decide) (by decide)

/-- **C3.** Every candle produced by the generator (after the fixed 4-decimal
rounding of its numeric fields) satisfies `high ≥ max(open, close)` and
`low ≤ min(open, close)`. -/
theorem history_high_low_invariant (symbol : String) (days : Nat) (today : Int) :
    (generateMockHistory symbol days today).Forall
      (fun c => max c.o c.c ≤ c.h ∧ c.l ≤ min c.o c.c) :=
  genFrom_forall_ok symbol _ days 0 _ (startPrice_pos symbol)

/-- **C4.** In every generated series, the close of candle `i` equals the open
of candle `i+1` exactly (both as returned, i.e. after rounding to 4 decimal
places): the unrounded close is carried forward as the next open and both are
rounded by the same function. -/
theorem history_close_open_chain (symbol : String) (days : Nat) (today : Int) :
    (generateMockHistory symbol days today).Chain' (fun a b => a.c = b.o) :=
  genFrom_chain symbol _ days 0 _

/-- **C10.** Volatility lies in `[0.008, 0.018)`, `|drift| ≤ 0.001`,
`|dailyMove| ≤ volatility + |drift| < 0.02 < 0.15`; hence for a positive open
the clamp to `[open·0.85, open·1.15]` never alters the close, and each day's
close equals `open · (1 + dailyMove)` exactly. -/
theorem clamp_never_alters_close (symbol : String) (i : Nat) (price : ℚ)
    (hp : 0 < price) :
    (8/1000 ≤ volatility symbol ∧ volatility symbol < 18/1000) ∧
    |drift symbol| ≤ 1/1000 ∧
    |dailyMove symbol i| ≤ volatility symbol + |drift symbol| ∧
    volatility symbol + |drift symbol| < 2/100 ∧
    newClose symbol i price = price * (1 + dailyMove symbol i) :=
  ⟨volatility_bounds symbol, abs_drift_le symbol, abs_dailyMove_le symbol i,
   vol_plus_drift_lt symbol, newClose_eq symbol i price hp⟩

/-- Witness for **C10** at `symbol = "BTC"`, `i = 0`, `price = 50`. -/
theorem clamp_never_alters_close_witness :
    (8/1000 ≤ volatility "BTC" ∧ volatility "BTC" < 18/1000) ∧
    |drift "BTC"| ≤ 1/1000 ∧
    |dailyMove "BTC" 0| ≤ volatility "BTC" + |drift "BTC"| ∧
    volatility "BTC" + |drift "BTC"| < 2/100 ∧
    newClose "BTC" 0 50 = 50 * (1 + dailyMove "BTC" 0) :=
  clamp_never_alters_close "BTC" 0 50 (by norm_num)

/-! ### Persistence round-trip (C8) -/

theorem itemOfJson_itemToJson (w : WatchItem) : itemOfJson (itemToJson w) = some w := by
  cases w with
  | mk i tk ty nt t z => cases nt <;> cases ty <;> cases z <;> rfl

theorem decodeItems_saveBlob (l : List WatchItem) :
    decodeItems (l.map itemToJson) = some l := by
  induction l with
  | nil => rfl
  | cons a as ih => simp only [List.map_cons, decodeItems, itemOfJson_itemToJson, ih]

/-- **C8 (amended).** For every nonempty entry list, saving and then loading
yields exactly the saved list, entry by entry. -/
theorem save_load_roundtrip (l : List WatchItem) (hne : l ≠ []) (current : List WatchItem) :
    loadEffect (some (saveBlob l)) current = l := by
  obtain ⟨a, as, rfl⟩ : ∃ a as, l = a :: as := by
    cases l with
    | nil => exact absurd rfl hne
    | cons a as => exact ⟨a, as, rfl⟩
  simp only [saveBlob, List.map_cons, loadEffect, List.isEmpty_cons, Bool.false_eq_true,
    if_false, decodeItems, itemOfJson_itemToJson, decodeItems_saveBlob]

/-- Witness for **C8 (amended)** at the default seed list. -/
theorem save_load_roundtrip_witness :
    loadEffect (some (saveBlob defaultItems)) [] = defaultItems :=
  save_load_roundtrip defaultItems (by decide) []

/-- **C8 (counterexample).** The claim includes the empty store, but saving
the empty list and loading yields the default seed entries, not the empty
list: the load effect treats a saved empty array like absent data
(`saved.length ? saved : defaultItems()`). -/
theorem load_empty_returns_defaults :
    loadEffect (some (saveBlob [])) [] = defaultItems ∧ defaultItems ≠ [] :=
  ⟨rfl, by decide⟩

/-! ### Ticker validation (C7) -/

/-- **C7 (counterexample).** `"$$$"` normalizes to itself, fails the spec's
allowed-character pattern, and yet `addAsset` accepts it and creates an
entry: page.tsx rejects only the empty normalized ticker. -/
theorem addAsset_accepts_pattern_invalid_ticker :
    specAllowedTicker (normalizeTicker "$$$") = false ∧
    addAsset [] "$$$" AssetType.CRYPTO "" "id1" 0 ≠ [] := by
  refine ⟨by decide, by decide⟩

/-- **C7 (amended).** `addAsset` first normalizes the ticker (trim, uppercase,
strip internal whitespace), and the call is a no-op exactly when the
normalized ticker is empty or an entry with the same identifier exists;
otherwise an entry is created.  No character-class or length check is
performed. -/
theorem addAsset_noop_iff (items : List WatchItem) (raw : String) (ty : AssetType)
    (note fid : String) (now : Int) :
    addAsset items raw ty note fid now = items ↔
      (normalizeTicker raw = "" ∨
        ∃ x ∈ items, x.ticker = normalizeTicker raw ∧ x.type = ty) := by
  simp only [addAsset]
  by_cases h1 : normalizeTicker raw = ""
  · rw [if_pos h1]
    exact iff_of_true rfl (Or.inl h1)
  rw [if_neg h1]
  by_cases h2 : (items.any fun x => x.ticker == normalizeTicker raw && x.type == ty) = true
  · rw [if_pos h2]
    simp only [List.any_eq_true, Bool.and_eq_true, beq_iff_eq] at h2
    exact iff_of_true rfl (Or.inr h2)
  · rw [if_neg h2]
    refine iff_of_false (List.cons_ne_self _ _) ?_
    rintro (h | ⟨x, hx, htk, hty⟩)
    · exact h1 h
    · exact h2 (List.any_eq_true.mpr ⟨x, hx, by simp [htk, hty]⟩)

/-! ### Idempotent add (C6) -/

theorem countIdent_eq_zero_of_not_any (l : List WatchItem) (tk : String) (ty : AssetType)
    (h : (l.any fun x => x.ticker == tk && x.type == ty) = false) :
    countIdent l tk ty = 0 := by
  rw [countIdent, List.length_eq_zero]
  rw [List.any_eq_false] at h
  exact List.filter_eq_nil_iff.mpr h

theorem countIdent_eq_one_of_any (l : List WatchItem) (tk : String) (ty : AssetType)
    (hnd : NoDupIdent l)
    (h : (l.any fun x => x.ticker == tk && x.type == ty) = true) :
    countIdent l tk ty = 1 := by
  induction l with
  | nil => simp at h
  | cons a as ih =>
    rw [NoDupIdent, List.map_cons, List.nodup_cons] at hnd
    rw [List.any_cons] at h
    by_cases hp : (a.ticker == tk && a.type == ty) = true
    · have hz : countIdent as tk ty = 0 := by
        apply countIdent_eq_zero_of_not_any
        rw [List.any_eq_false]
        intro x hx hpx
        simp only [Bool.and_eq_true, beq_iff_eq] at hp hpx
        exact hnd.1 (List.mem_map.mpr
          ⟨x, hx, by simp [ident, hp.1, hp.2, hpx.1, hpx.2]⟩)
      have hz' : (as.filter fun x => x.ticker == tk && x.type == ty).length = 0 := hz
      simp only [countIdent, List.filter_cons, hp, if_true, List.length_cons]
      omega
    · have h' : (as.any fun x => x.ticker == tk && x.type == ty) = true := by
        rw [Bool.or_eq_true] at h
        rcases h with h | h
        · exact absurd h hp
        · exact h
      simp only [countIdent, List.filter_cons, hp, if_false]
      exact ih hnd.2 h'

/-- When no entry with the normalized identifier is present (and the
normalized ticker is nonempty), `addAsset` prepends one new entry carrying
that identifier. -/
theorem addAsset_not_present (items : List WatchItem) (raw : String) (ty : AssetType)
    (note fid : String) (now : Int) (h1 : normalizeTicker raw ≠ "")
    (h2 : ¬(items.any fun x => x.ticker == normalizeTicker raw && x.type == ty) = true) :
    ∃ w : WatchItem, w.ticker = normalizeTicker raw ∧ w.type = ty ∧
      addAsset items raw ty note fid now = w :: items := by
  refine ⟨{ id := fid, ticker := normalizeTicker raw, type := ty,
            note := if jsTrim note = "" then none else some (jsTrim note),
            addedAt := now, zone := mockZone (normalizeTicker raw) ty },
          rfl, rfl, ?_⟩
  simp only [addAsset]
  rw [if_neg h1, if_neg h2]

/-- **C6.** Adding the same normalized (ticker, type) twice — with possibly
different notes, ids and timestamps — leaves exactly one entry with that
identifier, and the second add changes nothing at all (no duplicate, no note
update), provided the normalized ticker is nonempty and the starting store
satisfies the identifier-uniqueness invariant of the data model. -/
theorem addAsset_idempotent (items : List WatchItem) (raw : String) (ty : AssetType)
    (note1 note2 fid1 fid2 : String) (t1 t2 : Int)
    (hticker : normalizeTicker raw ≠ "") (hnd : NoDupIdent items) :
    addAsset (addAsset items raw ty note1 fid1 t1) raw ty note2 fid2 t2
        = addAsset items raw ty note1 fid1 t1 ∧
    countIdent (addAsset (addAsset items raw ty note1 fid1 t1) raw ty note2 fid2 t2)
        (normalizeTicker raw) ty = 1 := by
  by_cases h2 : (items.any fun x => x.ticker == normalizeTicker raw && x.type == ty) = true
  · have e1 : addAsset items raw ty note1 fid1 t1 = items := by
      simp only [addAsset]; rw [if_neg hticker, if_pos h2]
    have e2 : addAsset items raw ty note2 fid2 t2 = items := by
      simp only [addAsset]; rw [if_neg hticker, if_pos h2]
    rw [e1, e2]
    exact ⟨rfl, countIdent_eq_one_of_any items _ _ hnd h2⟩
  · obtain ⟨w, hwt, hwy, e1⟩ :=
      addAsset_not_present items raw ty note1 fid1 t1 hticker h2
    rw [e1]
    have hpres : ((w :: items).any
        fun x => x.ticker == normalizeTicker raw && x.type == ty) = true := by
      simp [List.any_cons, hwt, hwy]
    have e2 : addAsset (w :: items) raw ty note2 fid2 t2 = w :: items := by
      simp only [addAsset]; rw [if_neg hticker, if_pos hpres]
    rw [e2]
    refine ⟨rfl, ?_⟩
    have hz : (items.filter fun x =>
        x.ticker == normalizeTicker raw && x.type == ty).length = 0 :=
      countIdent_eq_zero_of_not_any items _ _ (by rwa [Bool.not_eq_true] at h2)
    have hw : (w.ticker == normalizeTicker raw && w.type == ty) = true := by
      simp [hwt, hwy]
    simp only [countIdent, List.filter_cons, hw, if_true, List.length_cons]
    omega

/-- Witness for **C6**: adding `(BTC, CRYPTO)` twice to the empty store. -/
theorem addAsset_idempotent_witness :
    addAsset (addAsset [] "BTC" AssetType.CRYPTO "" "a" 0) "BTC" AssetType.CRYPTO "" "b" 1
        = addAsset [] "BTC" AssetType.CRYPTO "" "a" 0 ∧
    countIdent (addAsset (addAsset [] "BTC" AssetType.CRYPTO "" "a" 0)
        "BTC" AssetType.CRYPTO "" "b" 1) (normalizeTicker "BTC") AssetType.CRYPTO = 1 :=
  addAsset_idempotent [] "BTC" AssetType.CRYPTO "" "" "a" "b" 0 1 (by decide)
    (by simp [NoDupIdent])

/-! ### Identifier uniqueness as a reachability invariant (C9) -/

theorem noDupIdent_addAsset (items : List WatchItem) (raw : String) (ty : AssetType)
    (note fid : String) (now : Int) (h : NoDupIdent items) :
    NoDupIdent (addAsset items raw ty note fid now) := by
  by_cases h1 : normalizeTicker raw = ""
  · have e : addAsset items raw ty note fid now = items := by
      simp only [addAsset]; rw [if_pos h1]
    rwa [e]
  by_cases h2 : (items.any fun x => x.ticker == normalizeTicker raw && x.type == ty) = true
  · have e : addAsset items raw ty note fid now = items := by
      simp only [addAsset]; rw [if_neg h1, if_pos h2]
    rwa [e]
  · obtain ⟨w, hwt, hwy, e⟩ := addAsset_not_present items raw ty note fid now h1 h2
    rw [e, NoDupIdent, List.map_cons, List.nodup_cons]
    refine ⟨?_, h⟩
    intro hmem
    rcases List.mem_map.mp hmem with ⟨x, hx, hex⟩
    apply h2
    rw [List.any_eq_true]
    refine ⟨x, hx, ?_⟩
    simp only [ident, Prod.mk.injEq] at hex
    simp [hex.1, hex.2, hwt, hwy]

theorem refreshItems_map_ident (l : List WatchItem) :
    (refreshItems l).map ident = l.map ident := by
  simp only [refreshItems, List.map_map]
  exact List.map_congr_left fun x _ => rfl

theorem noDupIdent_refreshItems (l : List WatchItem) (h : NoDupIdent l) :
    NoDupIdent (refreshItems l) := by
  rw [NoDupIdent, refreshItems_map_ident]
  exact h

theorem noDupIdent_removeItem (l : List WatchItem) (id : String) (h : NoDupIdent l) :
    NoDupIdent (removeItem l id) := by
  rw [NoDupIdent, removeItem]
  exact List.Nodup.sublist (List.Sublist.map ident (List.filter_sublist l)) h

theorem noDupIdent_loadEffect (slot : Option Json) (current : List WatchItem)
    (hs : SlotInv slot) (hc : NoDupIdent current) :
    NoDupIdent (loadEffect slot current) := by
  cases slot with
  | none => exact hc
  | some j =>
    have hs' : ∃ l, NoDupIdent l ∧ j = saveBlob l := hs
    obtain ⟨l, hl, rfl⟩ := hs'
    cases l with
    | nil => exact (by simp [NoDupIdent, defaultItems, ident] : NoDupIdent defaultItems)
    | cons a as =>
      rw [save_load_roundtrip (a :: as) (by simp) current]
      exact hl

/-- The full store invariant holds in every reachable state: the in-memory
entries have pairwise distinct identifiers, and the persisted slot is either
empty or holds the serialization of such a list. -/
theorem reachable_storeInv (s : Store) (h : Reachable s) :
    NoDupIdent s.items ∧ SlotInv s.slot := by
  induction h with
  | init =>
    exact ⟨by simp [NoDupIdent, defaultItems, ident], trivial⟩
  | add s tin ty nt fid now sok hr ih =>
    by_cases hch : addAsset s.items tin ty nt fid now = s.items
    · have e : applyAdd s tin ty nt fid now sok = s := by
        simp only [applyAdd]; rw [if_pos hch]
      rw [e]
      exact ih
    · have e : applyAdd s tin ty nt fid now sok
          = saveTo s (addAsset s.items tin ty nt fid now) sok := by
        simp only [applyAdd]; rw [if_neg hch]
      rw [e]
      have hnd : NoDupIdent (addAsset s.items tin ty nt fid now) :=
        noDupIdent_addAsset _ _ _ _ _ _ ih.1
      cases sok with
      | false => exact ⟨hnd, ih.2⟩
      | true => exact ⟨hnd, ⟨addAsset s.items tin ty nt fid now, hnd, rfl⟩⟩
  | refresh s sok hr ih =>
    have hnd : NoDupIdent (refreshItems s.items) := noDupIdent_refreshItems _ ih.1
    cases sok with
    | false => exact ⟨hnd, ih.2⟩
    | true => exact ⟨hnd, ⟨refreshItems s.items, hnd, rfl⟩⟩
  | remove s id sok hr ih =>
    have hnd : NoDupIdent (removeItem s.items id) := noDupIdent_removeItem _ _ ih.1
    cases sok with
    | false => exact ⟨hnd, ih.2⟩
    | true => exact ⟨hnd, ⟨removeItem s.items id, hnd, rfl⟩⟩
  | clear s sok hr ih =>
    have hnd : NoDupIdent ([] : List WatchItem) := by simp [NoDupIdent]
    cases sok with
    | false => exact ⟨hnd, ih.2⟩
    | true => exact ⟨hnd, ⟨[], hnd, rfl⟩⟩
  | load s hr ih =>
    exact ⟨noDupIdent_loadEffect s.slot s.items ih.2 ih.1, ih.2⟩

/-- **C9.** In every store state reachable from the initial state by load,
add, refresh, remove and clear, no two entries share the same (ticker, type)
identifier. -/
theorem reachable_noDupIdent (s : Store) (h : Reachable s) : NoDupIdent s.items :=
  (reachable_storeInv s h).1

/-- Witness for **C9**: the initial state. -/
theorem reachable_noDupIdent_witness : NoDupIdent defaultItems :=
  reachable_noDupIdent { items := defaultItems, slot := none } Reachable.init

/-! ### No confidence anywhere (C5) -/

/-- **C5 (counterexample).** The entry created for `(BTC, CRYPTO)` is exactly
`{id, ticker, type, note, addedAt, zone}`; its serialized form has no
`confidence` key at all, while the spec's formula would require the value
`35 + (hash mod 66) = 74` for this identifier.  The signal derivation of
page.tsx computes only a zone. -/
theorem watch_entry_carries_no_confidence :
    addAsset [] "BTC" AssetType.CRYPTO "" "id1" 7
      = [{ id := "id1", ticker := "BTC", type := AssetType.CRYPTO, note := none,
           addedAt := 7, zone := Zone.IN_BUY_ZONE }] ∧
    (addAsset [] "BTC" AssetType.CRYPTO "" "id1" 7).map
        (fun w => jsonField (itemToJson w) "confidence") = [none] ∧
    specConfidence "BTC" AssetType.CRYPTO = 74 :=
  ⟨by decide, rfl, by decide⟩

/-- **C5 (amended).** Watch entries carry no confidence: the serialization of
every watch entry lacks a `confidence` key (the entry consists only of id,
ticker, type, optional note, addedAt and the zone computed by `mockZone`). -/
theorem serialized_entry_has_no_confidence (w : WatchItem) :
    jsonField (itemToJson w) "confidence" = none := by
  cases w with
  | mk i tk ty nt t z => cases nt <;> rfl

end BuyZone
